import Mathlib

set_option maxRecDepth 8192

/-!
Verification of the CECPQ2 hybrid KEM core (Tink experimental pqcrypto, C++).

Shallow embedding of:
- `GenerateHrssKeyPair` and `GenerateCecpq2Keypair` from
  `src/experimental/pqcrypto/cc/subtle/cecpq2_subtle_boringssl_util.cc`
  (translated from the source);
- the Sender/Recipient KEM operations
  (`Cecpq2HkdfSenderKemBoringSsl::New` / `::GenerateKey`,
  `Cecpq2HkdfRecipientKemBoringSsl::New` / `::GenerateKey`), whose
  implementations are not part of the given sources (only their tests and
  callers are), modelled from the specification.

External collaborators (X25519 arithmetic, HRSS lattice scheme, HKDF, the
CSPRNG) are abstracted as structures of functions carrying the contracts the
spec assigns to them (fixed output lengths, Diffie-Hellman agreement, HRSS
encapsulation/decapsulation correctness, KDF determinism).  Randomness is
determinized by passing the drawn random bytes as explicit arguments.
-/

/-- Byte strings are lists of naturals (each conceptually `< 256`; no claim
here depends on the byte bound). -/
abbrev Bytes := List Nat

/-! Parameter-set constants, from BoringSSL's `curve25519.h` and `hrss.h`
(external headers; the values are those of the fixed CECPQ2 parameter set:
X25519 and HRSS with N = 701). -/

def X25519_PUBLIC_VALUE_LEN : Nat := 32

def X25519_PRIVATE_KEY_LEN : Nat := 32

def X25519_SHARED_KEY_LEN : Nat := 32

def HRSS_PUBLIC_KEY_BYTES : Nat := 1138

def HRSS_CIPHERTEXT_BYTES : Nat := 1138

def HRSS_KEY_BYTES : Nat := 32

def HRSS_GENERATE_KEY_BYTES : Nat := 558

/-- Elliptic curve identifiers, from `tink/subtle/common_enums.h`. -/
inductive EllipticCurveType where
  | UNKNOWN_CURVE
  | NIST_P256
  | NIST_P384
  | NIST_P521
  | CURVE25519
deriving DecidableEq, Repr

/-- Hash identifiers usable with the HKDF, with their digest sizes below. -/
inductive HashType where
  | SHA1
  | SHA256
  | SHA512
deriving DecidableEq, Repr

/-- Digest size in bytes of each hash. -/
def hashDigestSize : HashType → Nat
  | .SHA1 => 20
  | .SHA256 => 32
  | .SHA512 => 64

/-- EC point formats, from `tink/subtle/common_enums.h`.  Accepted by the KEM
interfaces for API uniformity; ignored for the single supported curve. -/
inductive EcPointFormat where
  | UNKNOWN_FORMAT
  | UNCOMPRESSED
  | COMPRESSED
deriving DecidableEq, Repr

/-- Error taxonomy of the core (`util::Status` codes actually produced):
`unsupportedAlgorithm` is `UNIMPLEMENTED` in the tests.  There is no
constructor for a decryption / tamper failure. -/
inductive CecpqError where
  | unsupportedAlgorithm
  | invalidArgument
  | internalError
deriving DecidableEq, Repr

/-- External X25519 primitive (`X25519_keypair` / `X25519` from BoringSSL),
with its contracts: fixed-length outputs and Diffie-Hellman agreement. -/
structure CurvePrimitives where
  x25519Pub : Bytes → Bytes
  x25519 : Bytes → Bytes → Bytes
  pubLen : ∀ priv, (x25519Pub priv).length = X25519_PUBLIC_VALUE_LEN
  sharedLen : ∀ priv pub, (x25519 priv pub).length = X25519_SHARED_KEY_LEN
  dh_agree : ∀ a b, x25519 a (x25519Pub b) = x25519 b (x25519Pub a)

/-- External HRSS primitive (`HRSS_generate_key`, `HRSS_marshal_public_key`,
`HRSS_encap`, `HRSS_decap` from BoringSSL).  `genPub`/`genPriv` give the key
pair deterministically derived from the entropy buffer; `decap` is total
(implicit rejection: it never fails).  Contracts: fixed lengths and
decapsulation of an honest encapsulation recovering the shared secret. -/
structure HrssPrimitives where
  genPub : Bytes → Bytes
  genPriv : Bytes → Bytes
  marshal : Bytes → Bytes
  encap : Bytes → Bytes → Bytes × Bytes
  decap : Bytes → Bytes → Bytes
  marshalLen : ∀ pub, (marshal pub).length = HRSS_PUBLIC_KEY_BYTES
  ctLen : ∀ pub r, (encap pub r).1.length = HRSS_CIPHERTEXT_BYTES
  secretLen : ∀ pub r, (encap pub r).2.length = HRSS_KEY_BYTES
  decapLen : ∀ priv ct, (decap priv ct).length = HRSS_KEY_BYTES
  encap_decap : ∀ entropy r,
    decap (genPriv entropy) (encap (marshal (genPub entropy)) r).1
      = (encap (marshal (genPub entropy)) r).2

/-- External HKDF primitive (`Hkdf::ComputeHkdf`): the unchecked extract+expand
core, deterministic, producing exactly the requested number of bytes. -/
structure KdfPrimitives where
  expand : HashType → Bytes → Bytes → Bytes → Nat → Bytes
  expandLen : ∀ h salt ikm info n, (expand h salt ikm info n).length = n

/-- Checked HKDF as used by both KEM sides: fails with `InvalidArgument` when
the requested output length is non-positive or exceeds the RFC 5869 expansion
bound of `255 *` digest size for the chosen hash. -/
def computeHkdf (K : KdfPrimitives) (hash : HashType) (salt ikm info : Bytes)
    (outputLen : Int) : Except CecpqError Bytes :=
  if outputLen ≤ 0 then
    .error .invalidArgument
  else if (255 * (hashDigestSize hash : Int)) < outputLen then
    .error .invalidArgument
  else
    .ok (K.expand hash salt ikm info outputLen.toNat)

/-- HRSS key pair as held by `crypto::tink::pqc::HrssKeyPair`:
the in-memory public key, the private key, and the marshaled public key. -/
structure HrssKeyPair where
  hrss_public_key : Bytes
  hrss_private_key : Bytes
  hrss_public_key_marshaled : Bytes
deriving DecidableEq, Repr

/-- X25519 key pair as held by the util's key-pair struct.  The generation
routine in the source fills only `priv` and `pub_x`; `pub_y` stays empty. -/
structure X25519KeyPair where
  priv : Bytes
  pub_x : Bytes
  pub_y : Bytes
deriving DecidableEq, Repr

/-- Combined hybrid key pair (`crypto::tink::pqc::Cecpq2KeyPair`). -/
structure Cecpq2KeyPair where
  x25519_key_pair : X25519KeyPair
  hrss_key_pair : HrssKeyPair
deriving DecidableEq, Repr

/-- `GenerateHrssKeyPair` from `cecpq2_subtle_boringssl_util.cc`: generates an
HRSS key pair from the given entropy via `HRSS_generate_key` and marshals the
public key via `HRSS_marshal_public_key`.  The source returns the pair
unconditionally; there is no error-returning path. -/
def GenerateHrssKeyPair (H : HrssPrimitives) (hrss_key_entropy : Bytes) :
    Except CecpqError HrssKeyPair :=
  .ok { hrss_public_key := H.genPub hrss_key_entropy
        hrss_private_key := H.genPriv hrss_key_entropy
        hrss_public_key_marshaled := H.marshal (H.genPub hrss_key_entropy) }

/-- `GenerateCecpq2Keypair` from `cecpq2_subtle_boringssl_util.cc`: generates
an X25519 key pair (the drawn private scalar is the explicit `x25519Priv`
argument), draws `HRSS_GENERATE_KEY_BYTES` of entropy from the CSPRNG
(`rand`, modelling `Random::GetRandomKeyBytes`), and generates the HRSS key
pair from it.  As in the source, `curve_type` is never inspected, and the
result of `GenerateHrssKeyPair` is consumed by an unchecked `ValueOrDie`
(the `.error` branch mirrors the would-be abort; it is proved unreachable). -/
def GenerateCecpq2Keypair (C : CurvePrimitives) (H : HrssPrimitives)
    (rand : Nat → Bytes) (x25519Priv : Bytes)
    (curve_type : EllipticCurveType) : Except CecpqError Cecpq2KeyPair :=
  let pub_x := C.x25519Pub x25519Priv
  let generate_hrss_key_entropy := rand HRSS_GENERATE_KEY_BYTES
  match GenerateHrssKeyPair H generate_hrss_key_entropy with
  | .ok hrss_key_pair =>
      .ok { x25519_key_pair := { priv := x25519Priv, pub_x := pub_x, pub_y := [] }
            hrss_key_pair := hrss_key_pair }
  | .error e => .error e

/-- Sender-side state: the recipient's classical public value and marshaled
HRSS public key (the public halves the sender encapsulates against). -/
structure SenderKemState where
  peerPubX : Bytes
  peerHrssPub : Bytes
deriving DecidableEq, Repr

/-- Modelled from the spec: `Cecpq2HkdfSenderKemBoringSsl::New` is not among
the given sources.  Per the spec it validates that the curve type is the
single supported one (else `UnsupportedAlgorithm`) and that the recipient's
lattice public bytes have the expected fixed length (else `InvalidArgument`);
the second classical coordinate `pubY` is accepted but ignored. -/
def senderNew (curveType : EllipticCurveType) (pubX pubY : Bytes)
    (hrssPubMarshaled : Bytes) : Except CecpqError SenderKemState :=
  match curveType with
  | .CURVE25519 =>
      if hrssPubMarshaled.length ≠ HRSS_PUBLIC_KEY_BYTES then
        .error .invalidArgument
      else
        .ok { peerPubX := pubX, peerHrssPub := hrssPubMarshaled }
  | _ => .error .unsupportedAlgorithm

/-- Modelled from the spec: `Cecpq2HkdfSenderKemBoringSsl::GenerateKey` is not
among the given sources.  Per the spec it generates a fresh ephemeral X25519
key pair (drawn scalar passed as `ephPriv`), computes the classical shared
secret against the recipient's public value, encapsulates to the recipient's
HRSS public key with fresh randomness `hrssRand`, concatenates the classical
secret first and the lattice secret second, and derives the symmetric key by
HKDF; the KEM bytes are the raw ephemeral public encoding followed by the
lattice ciphertext.  `pointFormat` is accepted but ignored for this curve. -/
def senderGenerateKey (C : CurvePrimitives) (H : HrssPrimitives)
    (K : KdfPrimitives) (s : SenderKemState) (hash : HashType)
    (salt info : Bytes) (outputLen : Int) (pointFormat : EcPointFormat)
    (ephPriv hrssRand : Bytes) : Except CecpqError (Bytes × Bytes) :=
  let ephemeralPublic := C.x25519Pub ephPriv
  let ecSecret := C.x25519 ephPriv s.peerPubX
  let encapResult := H.encap s.peerHrssPub hrssRand
  let combinedSecret := ecSecret ++ encapResult.2
  match computeHkdf K hash salt combinedSecret info outputLen with
  | .error e => .error e
  | .ok symmetricKey => .ok (ephemeralPublic ++ encapResult.1, symmetricKey)

/-- Recipient-side state: the recipient's classical private scalar and HRSS
private key. -/
structure RecipientKemState where
  privX : Bytes
  hrssPriv : Bytes
deriving DecidableEq, Repr

/-- Modelled from the spec: `Cecpq2HkdfRecipientKemBoringSsl::New` is not
among the given sources.  Per the spec it performs the same curve validation
as the sender construction. -/
def recipientNew (curveType : EllipticCurveType) (privX hrssPriv : Bytes) :
    Except CecpqError RecipientKemState :=
  match curveType with
  | .CURVE25519 => .ok { privX := privX, hrssPriv := hrssPriv }
  | _ => .error .unsupportedAlgorithm

/-- Modelled from the spec: `Cecpq2HkdfRecipientKemBoringSsl::GenerateKey` is
not among the given sources.  Per the spec it first validates that `kemBytes`
has length exactly `classicalPublicLen + latticeCiphertextLen` (else
`InvalidArgument`), splits it, computes the classical shared secret, runs HRSS
decapsulation (total, implicit rejection; never an error), and derives the
symmetric key by the identical HKDF derivation as the sender.  `pointFormat`
is accepted but ignored for this curve. -/
def recipientGenerateKey (C : CurvePrimitives) (H : HrssPrimitives)
    (K : KdfPrimitives) (r : RecipientKemState) (kemBytes : Bytes)
    (hash : HashType) (salt info : Bytes) (outputLen : Int)
    (pointFormat : EcPointFormat) : Except CecpqError Bytes :=
  if kemBytes.length ≠ X25519_PUBLIC_VALUE_LEN + HRSS_CIPHERTEXT_BYTES then
    .error .invalidArgument
  else
    let peerEncoding := kemBytes.take X25519_PUBLIC_VALUE_LEN
    let latticeCiphertext := kemBytes.drop X25519_PUBLIC_VALUE_LEN
    let ecSecret := C.x25519 r.privX peerEncoding
    let latticeSecret := H.decap r.hrssPriv latticeCiphertext
    computeHkdf K hash salt (ecSecret ++ latticeSecret) info outputLen

/-! Concrete primitive instances used to evaluate the development on closed
inputs.  They are degenerate but lawful: every contract field holds. -/

/-- A deterministic stand-in for the CSPRNG: `n` zero bytes. -/
def zeroRand (n : Nat) : Bytes := List.replicate n 0

/-- A lawful degenerate curve instance (constant shared secret, so
Diffie-Hellman agreement holds definitionally). -/
def unitCurve : CurvePrimitives where
  x25519Pub := fun _ => List.replicate X25519_PUBLIC_VALUE_LEN 0
  x25519 := fun _ _ => List.replicate X25519_SHARED_KEY_LEN 0
  pubLen := fun _ => List.length_replicate ..
  sharedLen := fun _ _ => List.length_replicate ..
  dh_agree := fun _ _ => rfl

/-- A lawful degenerate HRSS instance (constant ciphertext and secret, so
honest decapsulation trivially recovers the secret). -/
def unitHrss : HrssPrimitives where
  genPub := fun _ => []
  genPriv := fun _ => []
  marshal := fun _ => List.replicate HRSS_PUBLIC_KEY_BYTES 0
  encap := fun _ _ =>
    (List.replicate HRSS_CIPHERTEXT_BYTES 0, List.replicate HRSS_KEY_BYTES 0)
  decap := fun _ _ => List.replicate HRSS_KEY_BYTES 0
  marshalLen := fun _ => List.length_replicate ..
  ctLen := fun _ _ => List.length_replicate ..
  secretLen := fun _ _ => List.length_replicate ..
  decapLen := fun _ _ => List.length_replicate ..
  encap_decap := fun _ _ => rfl

/-- A lawful degenerate KDF instance (the requested number of zero bytes). -/
def unitKdf : KdfPrimitives where
  expand := fun _ _ _ _ n => List.replicate n 0
  expandLen := fun _ _ _ _ _ => List.length_replicate ..

/-! Helper lemmas shared by the claim theorems. -/

/-- Successful evaluation of the checked HKDF under valid output lengths. -/
theorem computeHkdf_ok (K : KdfPrimitives) (hash : HashType)
    (salt ikm info : Bytes) (outputLen : Int) (hlo : 0 < outputLen)
    (hhi : outputLen ≤ 255 * (hashDigestSize hash : Int)) :
    computeHkdf K hash salt ikm info outputLen =
      .ok (K.expand hash salt ikm info outputLen.toNat) := by
  unfold computeHkdf
  rw [if_neg (by omega), if_neg (by omega)]

/-- Inversion of a successful checked-HKDF evaluation. -/
theorem computeHkdf_ok_inv {K : KdfPrimitives} {hash : HashType}
    {salt ikm info : Bytes} {outputLen : Int} {key : Bytes}
    (h : computeHkdf K hash salt ikm info outputLen = .ok key) :
    0 < outputLen ∧ outputLen ≤ 255 * (hashDigestSize hash : Int) ∧
      key = K.expand hash salt ikm info outputLen.toNat := by
  unfold computeHkdf at h
  split at h
  · exact absurd h (by simp)
  · split at h
    · exact absurd h (by simp)
    · refine ⟨by omega, by omega, ?_⟩
      injection h with h
      exact h.symm

/-- Inversion of a successful sender encapsulation. -/
theorem senderGenerateKey_ok_inv {C : CurvePrimitives} {H : HrssPrimitives}
    {K : KdfPrimitives} {s : SenderKemState} {hash : HashType}
    {salt info : Bytes} {outputLen : Int} {fmt : EcPointFormat}
    {ephPriv hrssRand : Bytes} {kemKey : Bytes × Bytes}
    (h : senderGenerateKey C H K s hash salt info outputLen fmt ephPriv hrssRand
        = .ok kemKey) :
    0 < outputLen ∧ outputLen ≤ 255 * (hashDigestSize hash : Int) ∧
      kemKey = (C.x25519Pub ephPriv ++ (H.encap s.peerHrssPub hrssRand).1,
        K.expand hash salt
          (C.x25519 ephPriv s.peerPubX ++ (H.encap s.peerHrssPub hrssRand).2)
          info outputLen.toNat) := by
  unfold senderGenerateKey at h
  dsimp only at h
  split at h
  · exact absurd h (by simp)
  · next val heq =>
      obtain ⟨h1, h2, h3⟩ := computeHkdf_ok_inv heq
      injection h with h
      exact ⟨h1, h2, by rw [← h, h3]⟩

/-- Inversion of a successful recipient decapsulation. -/
theorem recipientGenerateKey_ok_inv {C : CurvePrimitives} {H : HrssPrimitives}
    {K : KdfPrimitives} {r : RecipientKemState} {kemBytes : Bytes}
    {hash : HashType} {salt info : Bytes} {outputLen : Int}
    {fmt : EcPointFormat} {key : Bytes}
    (h : recipientGenerateKey C H K r kemBytes hash salt info outputLen fmt
        = .ok key) :
    kemBytes.length = X25519_PUBLIC_VALUE_LEN + HRSS_CIPHERTEXT_BYTES ∧
      0 < outputLen ∧ outputLen ≤ 255 * (hashDigestSize hash : Int) ∧
      key = K.expand hash salt
        (C.x25519 r.privX (kemBytes.take X25519_PUBLIC_VALUE_LEN) ++
          H.decap r.hrssPriv (kemBytes.drop X25519_PUBLIC_VALUE_LEN))
        info outputLen.toNat := by
  unfold recipientGenerateKey at h
  dsimp only at h
  split at h
  · exact absurd h (by simp)
  · next hlen =>
      obtain ⟨h1, h2, h3⟩ := computeHkdf_ok_inv h
      exact ⟨by omega, h1, h2, h3⟩

/-- Sender construction succeeds on the supported curve when the recipient's
marshaled HRSS public key has the expected fixed length. -/
theorem senderNew_curve25519_ok (pubX pubY m : Bytes)
    (hm : m.length = HRSS_PUBLIC_KEY_BYTES) :
    senderNew .CURVE25519 pubX pubY m = .ok ⟨pubX, m⟩ := by
  unfold senderNew
  rw [if_neg (by simp [hm])]

/-- C1: for every valid hybrid key pair and every parameter tuple (hash, salt,
info, output length in the valid range), running `SenderKem.GenerateKey` and
then `RecipientKem.GenerateKey` on the unmodified encapsulated message, with
the same curve, hash, salt, info and output length, returns symmetric key
material bit-identical to the sender's. -/
theorem c1_sender_recipient_round_trip
    (C : CurvePrimitives) (H : HrssPrimitives) (K : KdfPrimitives)
    (rand : Nat → Bytes) (x25519Priv ephPriv hrssRand salt info : Bytes)
    (hash : HashType) (outputLen : Int) (fmtS fmtR : EcPointFormat)
    (kp : Cecpq2KeyPair) (s : SenderKemState) (kemKey : Bytes × Bytes)
    (r : RecipientKemState)
    (hkp : GenerateCecpq2Keypair C H rand x25519Priv .CURVE25519 = .ok kp)
    (hsn : senderNew .CURVE25519 kp.x25519_key_pair.pub_x
        kp.x25519_key_pair.pub_y kp.hrss_key_pair.hrss_public_key_marshaled
        = .ok s)
    (hsk : senderGenerateKey C H K s hash salt info outputLen fmtS ephPriv
        hrssRand = .ok kemKey)
    (hrn : recipientNew .CURVE25519 kp.x25519_key_pair.priv
        kp.hrss_key_pair.hrss_private_key = .ok r) :
    recipientGenerateKey C H K r kemKey.1 hash salt info outputLen fmtR
      = .ok kemKey.2 := by
  injection hkp with hkp
  subst hkp
  dsimp only at hsn hrn
  rw [senderNew_curve25519_ok _ _ _ (H.marshalLen _)] at hsn
  injection hsn with hsn
  subst hsn
  injection hrn with hrn
  subst hrn
  obtain ⟨hlo, hhi, hk⟩ := senderGenerateKey_ok_inv hsk
  subst hk
  dsimp only
  unfold recipientGenerateKey
  rw [if_neg (by simp [C.pubLen, H.ctLen])]
  dsimp only
  have htake : (C.x25519Pub ephPriv ++
      (H.encap (H.marshal (H.genPub (rand HRSS_GENERATE_KEY_BYTES))) hrssRand).1).take
        X25519_PUBLIC_VALUE_LEN = C.x25519Pub ephPriv := by
    rw [← C.pubLen ephPriv]
    exact List.take_left _ _
  have hdrop : (C.x25519Pub ephPriv ++
      (H.encap (H.marshal (H.genPub (rand HRSS_GENERATE_KEY_BYTES))) hrssRand).1).drop
        X25519_PUBLIC_VALUE_LEN
      = (H.encap (H.marshal (H.genPub (rand HRSS_GENERATE_KEY_BYTES))) hrssRand).1 := by
    rw [← C.pubLen ephPriv]
    exact List.drop_left _ _
  rw [htake, hdrop, C.dh_agree x25519Priv ephPriv, H.encap_decap]
  exact computeHkdf_ok K hash salt _ info outputLen hlo hhi

/-- C2: for every encapsulated message of the correct total length — in
particular one whose lattice-ciphertext portion has been altered — recipient
decapsulation returns successfully with a key (never an error), and the error
taxonomy contains no kind that signals decryption failure or tampering. -/
theorem c2_tampered_ciphertext_yields_key_not_error
    (C : CurvePrimitives) (H : HrssPrimitives) (K : KdfPrimitives)
    (r : RecipientKemState) (kemBytes : Bytes) (hash : HashType)
    (salt info : Bytes) (outputLen : Int) (fmt : EcPointFormat)
    (hlen : kemBytes.length = X25519_PUBLIC_VALUE_LEN + HRSS_CIPHERTEXT_BYTES)
    (hlo : 0 < outputLen)
    (hhi : outputLen ≤ 255 * (hashDigestSize hash : Int)) :
    recipientGenerateKey C H K r kemBytes hash salt info outputLen fmt =
      .ok (K.expand hash salt
        (C.x25519 r.privX (kemBytes.take X25519_PUBLIC_VALUE_LEN) ++
          H.decap r.hrssPriv (kemBytes.drop X25519_PUBLIC_VALUE_LEN))
        info outputLen.toNat) ∧
    ∀ e : CecpqError,
      e = .unsupportedAlgorithm ∨ e = .invalidArgument ∨ e = .internalError := by
  constructor
  · unfold recipientGenerateKey
    rw [if_neg (by simp [hlen])]
    exact computeHkdf_ok K hash salt _ info outputLen hlo hhi
  · intro e
    cases e
    · exact Or.inl rfl
    · exact Or.inr (Or.inl rfl)
    · exact Or.inr (Or.inr rfl)

/-- C3 counterexample: `GenerateCecpq2Keypair` called with the unknown-curve
sentinel succeeds and returns a key pair, instead of failing with
`UnsupportedAlgorithm` as claimed. -/
theorem c3_unknown_curve_keypair_succeeds :
    GenerateCecpq2Keypair unitCurve unitHrss zeroRand [] .UNKNOWN_CURVE =
      .ok ⟨⟨[], List.replicate 32 0, []⟩, ⟨[], [], List.replicate 1138 0⟩⟩ :=
  rfl

/-- C3 (amended): `GenerateCecpq2Keypair` performs no curve-type validation at
all: for every curve type — including the unknown sentinel and every concrete
curve — it succeeds and returns a key pair; it never fails with
`UnsupportedAlgorithm`.  Curve validation happens only at Sender/Recipient
construction. -/
theorem c3_keypair_generation_ignores_curve_type
    (C : CurvePrimitives) (H : HrssPrimitives) (rand : Nat → Bytes)
    (x25519Priv : Bytes) (curve_type : EllipticCurveType) :
    ∃ kp, GenerateCecpq2Keypair C H rand x25519Priv curve_type = .ok kp :=
  ⟨_, rfl⟩

/-- C4: for every curve type other than the single supported one — including
the unknown sentinel and concrete curves such as NIST P-256 — both sender and
recipient construction fail with `UnsupportedAlgorithm`, producing no
instance. -/
theorem c4_construction_rejects_unsupported_curves
    (curveType : EllipticCurveType)
    (pubX pubY hrssPubMarshaled privX hrssPriv : Bytes)
    (h : curveType ≠ .CURVE25519) :
    senderNew curveType pubX pubY hrssPubMarshaled
        = .error .unsupportedAlgorithm ∧
    recipientNew curveType privX hrssPriv = .error .unsupportedAlgorithm := by
  cases curveType
  · exact ⟨rfl, rfl⟩
  · exact ⟨rfl, rfl⟩
  · exact ⟨rfl, rfl⟩
  · exact ⟨rfl, rfl⟩
  · exact absurd rfl h

/-- C4 witness: concrete evaluation at the unknown sentinel and at NIST
P-256. -/
theorem c4_construction_rejects_unsupported_curves_witness :
    (EllipticCurveType.UNKNOWN_CURVE ≠ EllipticCurveType.CURVE25519 ∧
      senderNew .UNKNOWN_CURVE [] [] [] = .error .unsupportedAlgorithm ∧
      recipientNew .UNKNOWN_CURVE [] [] = .error .unsupportedAlgorithm) ∧
    (EllipticCurveType.NIST_P256 ≠ EllipticCurveType.CURVE25519 ∧
      senderNew .NIST_P256 [] [] [] = .error .unsupportedAlgorithm ∧
      recipientNew .NIST_P256 [] [] = .error .unsupportedAlgorithm) :=
  ⟨⟨by decide,
    c4_construction_rejects_unsupported_curves .UNKNOWN_CURVE [] [] [] [] []
      (by decide)⟩,
   ⟨by decide,
    c4_construction_rejects_unsupported_curves .NIST_P256 [] [] [] [] []
      (by decide)⟩⟩

/-- C5: whenever sender encapsulation succeeds, the encapsulated message has
length exactly `classicalPublicLen + latticeCiphertextLen` and the symmetric
key has length exactly the requested output length; likewise every key
returned by recipient decapsulation has length exactly the requested output
length. -/
theorem c5_output_lengths
    (C : CurvePrimitives) (H : HrssPrimitives) (K : KdfPrimitives)
    (s : SenderKemState) (hash : HashType) (salt info : Bytes)
    (outputLen : Int) (fmt : EcPointFormat) (ephPriv hrssRand : Bytes)
    (kemKey : Bytes × Bytes)
    (hs : senderGenerateKey C H K s hash salt info outputLen fmt ephPriv
        hrssRand = .ok kemKey) :
    kemKey.1.length = X25519_PUBLIC_VALUE_LEN + HRSS_CIPHERTEXT_BYTES ∧
    (kemKey.2.length : Int) = outputLen ∧
    ∀ (r : RecipientKemState) (kemBytes : Bytes) (fmt2 : EcPointFormat)
      (key : Bytes),
      recipientGenerateKey C H K r kemBytes hash salt info outputLen fmt2
          = .ok key →
      (key.length : Int) = outputLen := by
  obtain ⟨hlo, hhi, hk⟩ := senderGenerateKey_ok_inv hs
  subst hk
  refine ⟨?_, ?_, ?_⟩
  · simp [C.pubLen, H.ctLen]
  · simp only [K.expandLen]
    omega
  · intro r kemBytes fmt2 key hr
    obtain ⟨hlen, hlo2, hhi2, hkey⟩ := recipientGenerateKey_ok_inv hr
    subst hkey
    simp only [K.expandLen]
    omega

/-- C6: on every successful run, hybrid key-pair generation performs exactly
these steps: it generates the classical key pair via the curve primitive,
draws an entropy buffer of the fixed size `HRSS_GENERATE_KEY_BYTES` from the
CSPRNG, generates the lattice key pair from that entropy, and marshals the
lattice public key to its canonical encoding of fixed length
`HRSS_PUBLIC_KEY_BYTES`. -/
theorem c6_keypair_generation_exact_steps
    (C : CurvePrimitives) (H : HrssPrimitives) (rand : Nat → Bytes)
    (x25519Priv : Bytes) (curve_type : EllipticCurveType)
    (hrand : ∀ n, (rand n).length = n) :
    GenerateCecpq2Keypair C H rand x25519Priv curve_type =
      .ok ⟨⟨x25519Priv, C.x25519Pub x25519Priv, []⟩,
        ⟨H.genPub (rand HRSS_GENERATE_KEY_BYTES),
          H.genPriv (rand HRSS_GENERATE_KEY_BYTES),
          H.marshal (H.genPub (rand HRSS_GENERATE_KEY_BYTES))⟩⟩ ∧
    (rand HRSS_GENERATE_KEY_BYTES).length = HRSS_GENERATE_KEY_BYTES ∧
    (H.marshal (H.genPub (rand HRSS_GENERATE_KEY_BYTES))).length
      = HRSS_PUBLIC_KEY_BYTES :=
  ⟨rfl, hrand _, H.marshalLen _⟩

/-- C7: sender encapsulation fails with `InvalidArgument` whenever the
requested output length is non-positive or exceeds the KDF's maximum
expansion for the chosen hash; the error result carries no encapsulated
message and no key material. -/
theorem c7_sender_rejects_invalid_output_length
    (C : CurvePrimitives) (H : HrssPrimitives) (K : KdfPrimitives)
    (s : SenderKemState) (hash : HashType) (salt info : Bytes)
    (outputLen : Int) (fmt : EcPointFormat) (ephPriv hrssRand : Bytes)
    (h : outputLen ≤ 0 ∨ 255 * (hashDigestSize hash : Int) < outputLen) :
    senderGenerateKey C H K s hash salt info outputLen fmt ephPriv hrssRand =
      .error .invalidArgument := by
  unfold senderGenerateKey computeHkdf
  dsimp only
  rcases h with h | h
  · rw [if_pos h]
  · rw [if_neg (by omega), if_pos h]

/-- C8: recipient decapsulation checks first that the encapsulated message has
length exactly `classicalPublicLen + latticeCiphertextLen`, and fails with
`InvalidArgument` for every input of any other length, producing no key
material. -/
theorem c8_recipient_rejects_malformed_length
    (C : CurvePrimitives) (H : HrssPrimitives) (K : KdfPrimitives)
    (r : RecipientKemState) (kemBytes : Bytes) (hash : HashType)
    (salt info : Bytes) (outputLen : Int) (fmt : EcPointFormat)
    (h : kemBytes.length ≠ X25519_PUBLIC_VALUE_LEN + HRSS_CIPHERTEXT_BYTES) :
    recipientGenerateKey C H K r kemBytes hash salt info outputLen fmt =
      .error .invalidArgument := by
  unfold recipientGenerateKey
  rw [if_pos h]

/-- C9: neither the point-format argument to the KEM operations nor the second
classical-public-key coordinate accepted by sender construction has any effect
on the outputs: with all other inputs and randomness equal, the resulting
encapsulated message and symmetric key are identical. -/
theorem c9_point_format_and_second_coordinate_ignored
    (C : CurvePrimitives) (H : HrssPrimitives) (K : KdfPrimitives)
    (pubX pubY1 pubY2 hrssPubMarshaled : Bytes) (s : SenderKemState)
    (r : RecipientKemState) (kemBytes : Bytes) (hash : HashType)
    (salt info : Bytes) (outputLen : Int) (fmt1 fmt2 : EcPointFormat)
    (ephPriv hrssRand : Bytes) :
    senderNew .CURVE25519 pubX pubY1 hrssPubMarshaled =
      senderNew .CURVE25519 pubX pubY2 hrssPubMarshaled ∧
    senderGenerateKey C H K s hash salt info outputLen fmt1 ephPriv hrssRand =
      senderGenerateKey C H K s hash salt info outputLen fmt2 ephPriv
        hrssRand ∧
    recipientGenerateKey C H K r kemBytes hash salt info outputLen fmt1 =
      recipientGenerateKey C H K r kemBytes hash salt info outputLen fmt2 :=
  ⟨rfl, rfl, rfl⟩

/-- C10: `GenerateHrssKeyPair` returns a success status for every entropy
input (it has no error-returning path), so the unchecked `ValueOrDie` on its
result inside `GenerateCecpq2Keypair` can never abort, and
`GenerateCecpq2Keypair` always returns a key pair. -/
theorem c10_hrss_generation_never_fails :
    (∀ (H : HrssPrimitives) (entropy : Bytes),
      ∃ p, GenerateHrssKeyPair H entropy = .ok p) ∧
    (∀ (C : CurvePrimitives) (H : HrssPrimitives) (rand : Nat → Bytes)
      (x25519Priv : Bytes) (curve_type : EllipticCurveType),
      ∃ kp, GenerateCecpq2Keypair C H rand x25519Priv curve_type = .ok kp) :=
  ⟨fun _ _ => ⟨_, rfl⟩, fun _ _ _ _ _ => ⟨_, rfl⟩⟩

/-- C1 witness: concrete full-flow evaluation (SHA-256, the test vector's salt
and info, output length 32) over the degenerate lawful primitive instances. -/
theorem c1_sender_recipient_round_trip_witness :
    GenerateCecpq2Keypair unitCurve unitHrss zeroRand [] .CURVE25519 =
      .ok ⟨⟨[], List.replicate 32 0, []⟩, ⟨[], [], List.replicate 1138 0⟩⟩ ∧
    senderNew .CURVE25519 (List.replicate 32 0) [] (List.replicate 1138 0) =
      .ok ⟨List.replicate 32 0, List.replicate 1138 0⟩ ∧
    senderGenerateKey unitCurve unitHrss unitKdf
        ⟨List.replicate 32 0, List.replicate 1138 0⟩ .SHA256 [11, 11, 11, 11]
        [11, 11, 11, 11, 11, 11, 11, 11] 32 .COMPRESSED [] [] =
      .ok (List.replicate 32 0 ++ List.replicate 1138 0,
        List.replicate 32 0) ∧
    recipientNew .CURVE25519 [] [] = .ok ⟨[], []⟩ ∧
    recipientGenerateKey unitCurve unitHrss unitKdf ⟨[], []⟩
        (List.replicate 32 0 ++ List.replicate 1138 0) .SHA256
        [11, 11, 11, 11] [11, 11, 11, 11, 11, 11, 11, 11] 32 .COMPRESSED =
      .ok (List.replicate 32 0) :=
  ⟨rfl, rfl, rfl, rfl,
    c1_sender_recipient_round_trip unitCurve unitHrss unitKdf zeroRand [] []
      [] [11, 11, 11, 11] [11, 11, 11, 11, 11, 11, 11, 11] .SHA256 32
      .COMPRESSED .COMPRESSED
      ⟨⟨[], List.replicate 32 0, []⟩, ⟨[], [], List.replicate 1138 0⟩⟩
      ⟨List.replicate 32 0, List.replicate 1138 0⟩
      (List.replicate 32 0 ++ List.replicate 1138 0, List.replicate 32 0)
      ⟨[], []⟩ rfl rfl rfl rfl⟩

/-- C2 witness: a message whose whole lattice-ciphertext portion was
overwritten with byte 97 still decapsulates to a successfully returned key. -/
theorem c2_tampered_ciphertext_yields_key_not_error_witness :
    (List.replicate 32 0 ++ List.replicate 1138 97 : Bytes).length =
      X25519_PUBLIC_VALUE_LEN + HRSS_CIPHERTEXT_BYTES ∧
    (0 : Int) < 32 ∧
    (32 : Int) ≤ 255 * (hashDigestSize .SHA256 : Int) ∧
    (recipientGenerateKey unitCurve unitHrss unitKdf ⟨[], []⟩
        (List.replicate 32 0 ++ List.replicate 1138 97) .SHA256
        [11, 11, 11, 11] [11, 11, 11, 11, 11, 11, 11, 11] 32 .COMPRESSED =
      .ok (List.replicate 32 0) ∧
     ∀ e : CecpqError,
       e = .unsupportedAlgorithm ∨ e = .invalidArgument ∨ e = .internalError) :=
  ⟨by simp [X25519_PUBLIC_VALUE_LEN, HRSS_CIPHERTEXT_BYTES], by decide,
   by decide,
   c2_tampered_ciphertext_yields_key_not_error unitCurve unitHrss unitKdf
     ⟨[], []⟩ (List.replicate 32 0 ++ List.replicate 1138 97) .SHA256
     [11, 11, 11, 11] [11, 11, 11, 11, 11, 11, 11, 11] 32 .COMPRESSED
     (by simp [X25519_PUBLIC_VALUE_LEN, HRSS_CIPHERTEXT_BYTES]) (by decide)
     (by decide)⟩

/-- C5 witness: concrete sender run; the encapsulated message and both keys
have the prescribed lengths. -/
theorem c5_output_lengths_witness :
    senderGenerateKey unitCurve unitHrss unitKdf
        ⟨List.replicate 32 0, List.replicate 1138 0⟩ .SHA256 [] [] 32
        .COMPRESSED [] [] =
      .ok (List.replicate 32 0 ++ List.replicate 1138 0,
        List.replicate 32 0) ∧
    ((List.replicate 32 0 ++ List.replicate 1138 0 : Bytes).length =
        X25519_PUBLIC_VALUE_LEN + HRSS_CIPHERTEXT_BYTES ∧
      ((List.replicate 32 0 : Bytes).length : Int) = 32 ∧
      ∀ (r : RecipientKemState) (kemBytes : Bytes) (fmt2 : EcPointFormat)
        (key : Bytes),
        recipientGenerateKey unitCurve unitHrss unitKdf r kemBytes .SHA256 []
            [] 32 fmt2 = .ok key →
        (key.length : Int) = 32) :=
  ⟨rfl,
   c5_output_lengths unitCurve unitHrss unitKdf
     ⟨List.replicate 32 0, List.replicate 1138 0⟩ .SHA256 [] [] 32 .COMPRESSED
     [] [] (List.replicate 32 0 ++ List.replicate 1138 0, List.replicate 32 0)
     rfl⟩

/-- C6 witness: concrete evaluation with the zero CSPRNG stand-in. -/
theorem c6_keypair_generation_exact_steps_witness :
    (∀ n, (zeroRand n).length = n) ∧
    (GenerateCecpq2Keypair unitCurve unitHrss zeroRand [] .CURVE25519 =
        .ok ⟨⟨[], List.replicate 32 0, []⟩, ⟨[], [], List.replicate 1138 0⟩⟩ ∧
      (zeroRand HRSS_GENERATE_KEY_BYTES).length = HRSS_GENERATE_KEY_BYTES ∧
      (List.replicate 1138 0 : Bytes).length = HRSS_PUBLIC_KEY_BYTES) :=
  ⟨fun n => List.length_replicate ..,
   c6_keypair_generation_exact_steps unitCurve unitHrss zeroRand []
     .CURVE25519 (fun n => List.length_replicate ..)⟩

/-- C7 witness: output length 0 is rejected with `InvalidArgument`. -/
theorem c7_sender_rejects_invalid_output_length_witness :
    ((0 : Int) ≤ 0 ∨ 255 * (hashDigestSize HashType.SHA256 : Int) < 0) ∧
    senderGenerateKey unitCurve unitHrss unitKdf ⟨[], []⟩ .SHA256 [] [] 0
        .COMPRESSED [] [] = .error .invalidArgument :=
  ⟨Or.inl (by decide),
   c7_sender_rejects_invalid_output_length unitCurve unitHrss unitKdf ⟨[], []⟩
     .SHA256 [] [] 0 .COMPRESSED [] [] (Or.inl (by decide))⟩

/-- C8 witness: the empty message has the wrong length and is rejected with
`InvalidArgument`. -/
theorem c8_recipient_rejects_malformed_length_witness :
    ([] : Bytes).length ≠ X25519_PUBLIC_VALUE_LEN + HRSS_CIPHERTEXT_BYTES ∧
    recipientGenerateKey unitCurve unitHrss unitKdf ⟨[], []⟩ [] .SHA256 [] []
        32 .COMPRESSED = .error .invalidArgument :=
  ⟨by decide,
   c8_recipient_rejects_malformed_length unitCurve unitHrss unitKdf ⟨[], []⟩
     [] .SHA256 [] [] 32 .COMPRESSED (by decide)⟩
